import Mathlib

/-
Verification of the parse API client library (Go, several iterations of the
same package). The definitions below are shallow embeddings of the Go source:
 * strings/replacer model (Go strings.Replacer, used by the redaction code),
 * a URL record with RFC 3986 reference resolution (the contract of the
   net/url dependency the client calls),
 * a JSON value model with an executable reader, mirroring encoding/json on
   the fragment the client exchanges (objects, arrays, strings, integer
   numerals, booleans, null),
 * the request pipeline Client.Do of src/parse.go (the daaku/go.parse
   iteration using httperr),
 * the credential-strategy client of the facebookgo/parse iteration,
 * the ACL accessors and the query-parameter builders of all iterations.
Theorems named cN_... settle the correspondingly numbered claims about the
specification of this repository.
-/

namespace ParseClient

/-- `strContains s sub` holds when `sub` occurs contiguously inside `s`. -/
def strContains (s sub : String) : Prop := sub.data <:+: s.data

instance (s sub : String) : Decidable (strContains s sub) :=
  List.decidableInfix sub.data s.data

/-! ### Go `strings.Replacer`

`strings.NewReplacer(old1, new1, old2, new2, ...).Replace(s)` scans `s` left
to right; at each position the first listed pattern that matches is replaced
and the scan continues after the replacement.  All patterns produced by the
redaction code are nonempty (they are guarded by `!= ""` checks), so the
model only matches nonempty patterns. -/

/-- First pair of `pairs` whose (nonempty) pattern is a prefix of `cs`. -/
def firstMatch (pairs : List (String × String)) (cs : List Char) :
    Option (String × String) :=
  pairs.find? (fun pr => !pr.1.data.isEmpty && pr.1.data.isPrefixOf cs)

/-- Left-to-right scan of Go's Replacer.  `fuel` bounds the recursion; every
step consumes at least one character, so `fuel = cs.length` is enough. -/
def replaceScan (pairs : List (String × String)) :
    Nat → List Char → List Char
  | 0, cs => cs
  | _ + 1, [] => []
  | fuel + 1, c :: cs =>
    match firstMatch pairs (c :: cs) with
    | some (pat, rep) =>
        rep.data ++ replaceScan pairs fuel (List.drop pat.data.length (c :: cs))
    | none => c :: replaceScan pairs fuel cs

/-- Go `strings.NewReplacer(pairs...).Replace(s)`. -/
def multiReplace (pairs : List (String × String)) (s : String) : String :=
  String.mk (replaceScan pairs s.data.length s.data)

/-! ### URLs and reference resolution

The client keeps request targets as `net/url.URL` values of the shape
`{Scheme, Host, Path, RawQuery, Fragment}` (no Opaque, no User).  The only
URL operations the source code performs are the `IsAbs` test and
`ResolveReference`. -/

/-- A URL of the shape the client builds (Go `net/url.URL` restricted to the
fields the repository uses).  The empty string plays Go's double role of
"absent component". -/
structure URL where
  scheme : String := ""
  host : String := ""
  path : String := ""
  query : String := ""
  fragment : String := ""
deriving DecidableEq

/-- Go `url.URL.IsAbs`: a URL is absolute when it carries a scheme. -/
def URL.isAbs (u : URL) : Bool := u.scheme != ""

/-- Remove the last segment and its preceding slash from an output buffer
(step 2C of RFC 3986 section 5.2.4). -/
def removeLastSegment (out : List Char) : List Char :=
  match (out.reverse.dropWhile (fun c => c ≠ '/')) with
  | [] => []
  | _ :: t => t.reverse

/-- Loop of RFC 3986 section 5.2.4 (remove_dot_segments); every step strictly
shortens the input buffer, so `fuel = length + 1` always suffices. -/
def removeDotSegmentsAux : Nat → List Char → List Char → List Char
  | 0, _, out => out
  | fuel + 1, inp, out =>
    match inp with
    | [] => out
    | _ =>
      if ([ '.', '.', '/' ] : List Char).isPrefixOf inp then
        removeDotSegmentsAux fuel (inp.drop 3) out
      else if ([ '.', '/' ] : List Char).isPrefixOf inp then
        removeDotSegmentsAux fuel (inp.drop 2) out
      else if ([ '/', '.', '/' ] : List Char).isPrefixOf inp then
        removeDotSegmentsAux fuel ('/' :: inp.drop 3) out
      else if inp = [ '/', '.' ] then
        removeDotSegmentsAux fuel [ '/' ] out
      else if ([ '/', '.', '.', '/' ] : List Char).isPrefixOf inp then
        removeDotSegmentsAux fuel ('/' :: inp.drop 4) (removeLastSegment out)
      else if inp = [ '/', '.', '.' ] then
        removeDotSegmentsAux fuel [ '/' ] (removeLastSegment out)
      else if inp = [ '.' ] ∨ inp = [ '.', '.' ] then
        removeDotSegmentsAux fuel [] out
      else
        match inp with
        | [] => out
        | c :: rest =>
          let seg := rest.takeWhile (fun ch => ch ≠ '/')
          removeDotSegmentsAux fuel (rest.drop seg.length) (out ++ c :: seg)

/-- RFC 3986 section 5.2.4 remove_dot_segments. -/
def removeDotSegments (p : String) : String :=
  String.mk (removeDotSegmentsAux (p.data.length + 1) p.data [])

/-- RFC 3986 section 5.2.3 merge: combine a base path with a relative path. -/
def mergePaths (baseHost basePath refPath : String) : String :=
  if baseHost ≠ "" ∧ basePath = "" then "/" ++ refPath
  else
    String.mk ((basePath.data.reverse.dropWhile (fun c => c ≠ '/')).reverse
      ++ refPath.data)

/-- Modelled from the spec: Go `net/url.URL.ResolveReference` is a dependency
outside src/; its documented contract is RFC 3986 section 5.3 reference
resolution ("standard URI reference resolution" in the spec), restricted here
to URLs of the shape the client uses.  Empty strings stand for undefined
components, as in `net/url`. -/
def URL.resolveReference (base ref : URL) : URL :=
  if ref.scheme ≠ "" then
    { ref with path := removeDotSegments ref.path }
  else if ref.host ≠ "" then
    { scheme := base.scheme, host := ref.host, path := removeDotSegments ref.path,
      query := ref.query, fragment := ref.fragment }
  else if ref.path = "" then
    { scheme := base.scheme, host := base.host, path := base.path,
      query := if ref.query ≠ "" then ref.query else base.query,
      fragment := ref.fragment }
  else if ([ '/' ] : List Char).isPrefixOf ref.path.data then
    { scheme := base.scheme, host := base.host, path := removeDotSegments ref.path,
      query := ref.query, fragment := ref.fragment }
  else
    { scheme := base.scheme, host := base.host,
      path := removeDotSegments (mergePaths base.host base.path ref.path),
      query := ref.query, fragment := ref.fragment }

/-- The default base URL of src/parse.go: `https://api.parse.com/1/`. -/
def DefaultBaseURL : URL :=
  { scheme := "https", host := "api.parse.com", path := "/1/" }

/-! ### JSON

The client exchanges JSON bodies through `encoding/json`.  The model covers
the fragment the client and its error struct exchange: objects, arrays,
strings, integer numerals, booleans and null (fractional and exponent
numerals and \u escapes are outside the model). -/

inductive Json where
  | str (s : String)
  | num (n : Int)
  | boolVal (b : Bool)
  | null
  | arr (elems : List Json)
  | obj (fields : List (String × Json))

/-- Skip JSON insignificant whitespace. -/
def skipWs (cs : List Char) : List Char :=
  cs.dropWhile (fun c => c == ' ' || c == '\t' || c == '\n' || c == '\r')

/-- One-character JSON string escapes. -/
def escChar (c : Char) : Option Char :=
  if c = '"' then some '"'
  else if c = '\\' then some '\\'
  else if c = '/' then some '/'
  else if c = 'n' then some '\n'
  else if c = 't' then some '\t'
  else if c = 'r' then some '\r'
  else if c = 'b' then some (Char.ofNat 8)
  else if c = 'f' then some (Char.ofNat 12)
  else none

/-- Read the characters of a JSON string literal after its opening quote;
returns the contents and the input after the closing quote. -/
def parseStringChars : List Char → Option (List Char × List Char)
  | [] => none
  | c :: cs =>
    if c = '"' then some ([], cs)
    else if c = '\\' then
      match cs with
      | [] => none
      | e :: cs' =>
        match escChar e with
        | none => none
        | some ch =>
          match parseStringChars cs' with
          | none => none
          | some (s, r) => some (ch :: s, r)
    else
      match parseStringChars cs with
      | none => none
      | some (s, r) => some (c :: s, r)

def natOfDigits (ds : List Char) : Nat :=
  ds.foldl (fun a c => a * 10 + (c.toNat - 48)) 0

/-- Read an unsigned integer numeral. -/
def parseNatNum (cs : List Char) : Option (Nat × List Char) :=
  let ds := cs.takeWhile (fun c => c.isDigit)
  if ds.isEmpty then none
  else
    match cs.drop ds.length with
    | c :: r => if c == '.' || c == 'e' || c == 'E' then none
                else some (natOfDigits ds, c :: r)
    | [] => some (natOfDigits ds, [])

/-- Read an integer numeral with optional minus sign. -/
def parseNumber : List Char → Option (Int × List Char)
  | '-' :: rest =>
    match parseNatNum rest with
    | none => none
    | some (n, r) => some (-(n : Int), r)
  | cs =>
    match parseNatNum cs with
    | none => none
    | some (n, r) => some ((n : Int), r)

mutual

/-- Read one JSON value; `fuel` bounds the recursion depth, a fuel of
input length + 1 always suffices. -/
def parseVal : Nat → List Char → Option (Json × List Char)
  | 0, _ => none
  | fuel + 1, cs =>
    match skipWs cs with
    | [] => none
    | c :: rest =>
      if c = '"' then
        match parseStringChars rest with
        | none => none
        | some (s, r) => some (Json.str (String.mk s), r)
      else if c = 't' then
        if ([ 'r', 'u', 'e' ] : List Char).isPrefixOf rest then
          some (Json.boolVal true, rest.drop 3)
        else none
      else if c = 'f' then
        if ([ 'a', 'l', 's', 'e' ] : List Char).isPrefixOf rest then
          some (Json.boolVal false, rest.drop 4)
        else none
      else if c = 'n' then
        if ([ 'u', 'l', 'l' ] : List Char).isPrefixOf rest then
          some (Json.null, rest.drop 3)
        else none
      else if c == '-' || c.isDigit then
        match parseNumber (c :: rest) with
        | none => none
        | some (n, r) => some (Json.num n, r)
      else if c = '\x7b' then
        match skipWs rest with
        | '\x7d' :: r2 => some (Json.obj [], r2)
        | r2 =>
          match parseObjRest fuel r2 with
          | none => none
          | some (fields, r3) => some (Json.obj fields, r3)
      else if c = '[' then
        match skipWs rest with
        | ']' :: r2 => some (Json.arr [], r2)
        | r2 =>
          match parseArrRest fuel r2 with
          | none => none
          | some (vs, r3) => some (Json.arr vs, r3)
      else none

/-- Read the members of a JSON object up to its closing brace. -/
def parseObjRest : Nat → List Char → Option (List (String × Json) × List Char)
  | 0, _ => none
  | fuel + 1, cs =>
    match skipWs cs with
    | '"' :: r1 =>
      match parseStringChars r1 with
      | none => none
      | some (k, r2) =>
        match skipWs r2 with
        | ':' :: r3 =>
          match parseVal fuel r3 with
          | none => none
          | some (v, r4) =>
            match skipWs r4 with
            | ',' :: r5 =>
              match parseObjRest fuel r5 with
              | none => none
              | some (ms, r6) => some ((String.mk k, v) :: ms, r6)
            | '\x7d' :: r5 => some ([ (String.mk k, v) ], r5)
            | _ => none
        | _ => none
    | _ => none

/-- Read the elements of a JSON array up to its closing bracket. -/
def parseArrRest : Nat → List Char → Option (List Json × List Char)
  | 0, _ => none
  | fuel + 1, cs =>
    match parseVal fuel cs with
    | none => none
    | some (v, r1) =>
      match skipWs r1 with
      | ',' :: r2 =>
        match parseArrRest fuel r2 with
        | none => none
        | some (vs, r3) => some (v :: vs, r3)
      | ']' :: r2 => some (v :: [], r2)
      | _ => none

end

/-- `encoding/json` top-level read of one JSON value: the whole input must be
consumed up to trailing whitespace. -/
def jsonParse (s : String) : Option Json :=
  match parseVal (s.data.length + 1) s.data with
  | none => none
  | some (v, rest) => if skipWs rest = [] then some v else none

/-- The `Error` struct of src/parse.go: `Message` is serialized under the
JSON key "error", `Code` under "code". -/
structure ParseError where
  message : String := ""
  code : Int := 0
deriving DecidableEq

/-- `json.Unmarshal` field assignment for the `Error` struct: the key "error"
must carry a string, "code" a number; JSON null leaves a field untouched;
unknown keys are ignored (Go's case-insensitive fallback match is not
modelled; the API uses lower-case keys). -/
def setErrorField (e : ParseError) (kv : String × Json) : Option ParseError :=
  if kv.1 = "error" then
    match kv.2 with
    | Json.str s => some { e with message := s }
    | Json.null => some e
    | _ => none
  else if kv.1 = "code" then
    match kv.2 with
    | Json.num n => some { e with code := n }
    | Json.null => some e
    | _ => none
  else some e

/-- `json.Unmarshal(body, &Error{})`: the body must be a JSON object (fields
applied in order, later duplicates overwriting) or JSON null; anything else
-- including invalid JSON and the empty body -- fails. -/
def unmarshalParseError (body : String) : Option ParseError :=
  match jsonParse body with
  | none => none
  | some (Json.obj fields) => fields.foldlM setErrorField {}
  | some Json.null => some {}
  | some _ => none

/-! ### The src/parse.go client (daaku/go.parse iteration, httperr based) -/

/-- Credentials of src/parse.go. -/
structure Credentials where
  applicationID : String := ""
  clientKey : String := ""
  javaScriptKey : String := ""
  windowsKey : String := ""
  restApiKey : String := ""
  masterKey : String := ""
deriving DecidableEq

/-- Client of src/parse.go; the Transport is passed to `Client.Do` as a
function argument. -/
structure Client where
  credentials : Credentials := {}
  baseURL : Option URL := none
  redact : Bool := false
deriving DecidableEq

def masterKeyPlaceholder : String := "-- REDACTED MASTER KEY --"

/-- `Client.redactor` of src/parse.go lines 307-313: a no-op unless `Redact`
is set and a master key is configured, otherwise a single-pair Replacer. -/
def Client.redactor (c : Client) : String → String :=
  if !c.redact || c.credentials.masterKey == "" then fun s => s
  else multiReplace [ (c.credentials.masterKey, masterKeyPlaceholder) ]

/-- The slice of `http.Request` the pipeline touches. -/
structure Request where
  method : String := ""
  url : Option URL := none
  proto : String := ""
  protoMajor : Nat := 0
  protoMinor : Nat := 0
  host : String := ""
  headers : List (String × String) := []
  body : Option String := none
  contentLength : Int := 0
deriving DecidableEq

/-- Outcome of one `RoundTrip` call: a delivered response (status line and
fully readable body) or a network error. -/
inductive TransportResult where
  | ok (status : Nat) (statusText : String) (body : String)
  | netErr (msg : String)

/-- The observable result of `Client.Do`, by source path taken:
`success` (2xx/3xx, result decoded when a destination was given),
`marshalError` (json.Marshal of the request body failed),
`transportError` (RoundTrip returned an error),
`apiError` (non-2xx/3xx body unmarshalled into the `Error` struct),
`bodyUnmarshalError` (non-2xx/3xx body that failed to unmarshal; the
error wraps the raw status and raw body),
`resultDecodeError` (2xx/3xx body that failed to decode into the result). -/
inductive DoOutcome where
  | success (decoded : Option Json)
  | marshalError (msg : String)
  | transportError (msg : String)
  | apiError (e : ParseError)
  | bodyUnmarshalError (status : Nat) (body : String)
  | resultDecodeError (status : Nat) (body : String)

def DoOutcome.isSuccess : DoOutcome → Bool
  | success _ => true
  | _ => false

/-- The base URL in effect: `c.BaseURL`, or `DefaultBaseURL` when nil
(both nil checks of src/parse.go lines 237 and 244 take this shape). -/
def Client.base (c : Client) : URL :=
  match c.baseURL with
  | none => DefaultBaseURL
  | some b => b

/-- src/parse.go lines 236-250: nil request URL means the base URL itself;
a relative URL is resolved against the base; an absolute URL is used as-is. -/
def Client.resolveRequestURL (c : Client) (u : Option URL) : URL :=
  match u with
  | none => c.base
  | some p => if p.isAbs then p else URL.resolveReference c.base p

/-- src/parse.go lines 278-304: classification of a delivered response by
`Client.Do`.  Outside [200,399] the full body is read and unmarshalled into
the `Error` struct (failure keeps the raw status and body); inside the range
the body is decoded into the result destination, or drained and discarded
when no destination was given. -/
def classifyResponse (status : Nat) (rbody : String) (hasResult : Bool) :
    DoOutcome :=
  if status > 399 ∨ status < 200 then
    match unmarshalParseError rbody with
    | none => DoOutcome.bodyUnmarshalError status rbody
    | some e => DoOutcome.apiError e
  else
    if hasResult then
      match jsonParse rbody with
      | none => DoOutcome.resultDecodeError status rbody
      | some j => DoOutcome.success (some j)
    else DoOutcome.success none

/-- src/parse.go lines 272-304: the transport call and the response
classification of `Client.Do`.  The second component is the request handed
to `RoundTrip`. -/
def clientSend (transport : Request → TransportResult)
    (req : Request) (hasResult : Bool) : DoOutcome × Option Request :=
  match transport req with
  | TransportResult.netErr msg => (DoOutcome.transportError msg, some req)
  | TransportResult.ok status _ rbody =>
    (classifyResponse status rbody hasResult, some req)

/-- src/parse.go lines 231-304: `Client.Do`.  `body` stands for the optional
request body value together with its `json.Marshal` outcome (marshalling can
fail, e.g. on a map with non-string keys); `hasResult` tells whether the
caller supplied a result destination.  The second component of the result is
the request handed to the transport, `none` when no network call was made. -/
def Client.Do (c : Client) (transport : Request → TransportResult)
    (req : Request) (body : Option (Except String String)) (hasResult : Bool) :
    DoOutcome × Option Request :=
  let req1 : Request :=
    { req with proto := "HTTP/1.1", protoMajor := 1, protoMinor := 1 }
  let u := c.resolveRequestURL req1.url
  let req2 : Request := { req1 with url := some u }
  let req3 : Request :=
    { req2 with host := if req2.host = "" then u.host else req2.host }
  let req4 : Request := { req3 with headers := req3.headers ++
      [ ("X-Parse-Application-Id", c.credentials.applicationID),
        ("X-Parse-REST-API-Key", c.credentials.restApiKey) ] }
  match body with
  | some (Except.error msg) => (DoOutcome.marshalError msg, none)
  | some (Except.ok bd) =>
      clientSend transport
        { req4 with body := some bd, contentLength := (bd.length : Int) } hasResult
  | none => clientSend transport req4 hasResult

/-- Go `url.URL.String` restricted to the client's URL shape. -/
def URL.render (u : URL) : String :=
  (if u.scheme ≠ "" then u.scheme ++ "://" else "") ++ u.host ++ u.path ++
  (if u.query ≠ "" then "?" ++ u.query else "") ++
  (if u.fragment ≠ "" then "#" ++ u.fragment else "")

/-- Modelled from the spec: the error rendering of the external httperr
library (a dependency, not in src/).  Per the spec every error message must
embed method, resolved URL, status and the inner message, with redaction
applied before rendering secrets; the repository's own tests pin the format
down as "METHOD URL[ got STATUS] failed with INNER". -/
def httperrRender (redactor : String → String) (method urlStr : String)
    (status : Option String) (inner : String) : String :=
  redactor (method ++ " " ++ urlStr ++
    (match status with | some st => " got " ++ st | none => "") ++
    " failed with " ++ inner)

/-- src/parse.go lines 164-174: the inner message of `Error.Error`. -/
def ParseError.renderCore (e : ParseError) : String :=
  (if e.code ≠ 0 then "code " ++ toString e.code else "") ++
  (if e.code ≠ 0 ∧ e.message ≠ "" then " and " else "") ++
  (if e.message ≠ "" then "message " ++ e.message else "")

/-- src/parse.go lines 164-181: `Error.Error`, the full rendered message of
an API error (the httperr wrapper carries the request and response). -/
def ParseError.renderFull (c : Client) (method : String) (u : URL)
    (statusText : String) (e : ParseError) : String :=
  httperrRender (c.redactor) method (URL.render u) (some statusText)
    (ParseError.renderCore e)

/-! ### The earliest iteration (src/unnamed/part_000, redactIf) -/

/-- Credentials of src/unnamed/part_000. -/
structure V0Credentials where
  applicationID : String := ""
  javaScriptKey : String := ""
  masterKey : String := ""
  restApiKey : String := ""
deriving DecidableEq

/-- Client of src/unnamed/part_000, restricted to what redaction reads. -/
structure V0Client where
  credentials : V0Credentials := {}
  redact : Bool := false
deriving DecidableEq

def javaScriptKeyPlaceholder : String := "-- REDACTED JAVASCRIPT KEY --"

/-- `redactIf` of src/unnamed/part_000 lines 133-150: when `Redact` is set,
replace the configured JavaScript key and master key (each only when
nonempty, in that listing order) by their placeholders; otherwise return the
string unchanged. -/
def redactIf (c : V0Client) (s : String) : String :=
  if c.redact then
    multiReplace
      ((if c.credentials.javaScriptKey ≠ "" then
          [ (c.credentials.javaScriptKey, javaScriptKeyPlaceholder) ] else []) ++
       (if c.credentials.masterKey ≠ "" then
          [ (c.credentials.masterKey, masterKeyPlaceholder) ] else [])) s
  else s

/-! ### The facebookgo/parse iteration (src/unnamed/part_000, second file):
credential strategies -/

def masterKeyHeader : String := "X-Parse-Master-Key"
def restAPIKeyHeader : String := "X-Parse-REST-API-Key"
def sessionTokenHeader : String := "X-Parse-Session-Token"
def userAgentHeader : String := "User-Agent"
def userAgent : String := "go-parse-2015-01-31"

def errEmptyMasterKey : String := "parse: cannot use empty MasterKey Credentials"
def errEmptyRestAPIKey : String := "parse: cannot use empty RestAPIKey Credentials"
def errEmptySessionToken : String := "parse: cannot use empty SessionToken Credentials"
def errEmptyApplicationID : String := "parse: cannot use empty ApplicationID"

/-- Go `http.Header.Set`: replace any existing values for the key. -/
def headerSet (h : List (String × String)) (k v : String) :
    List (String × String) :=
  (h.filter (fun kv => kv.1 != k)) ++ [ (k, v) ]

/-- The credential strategies: MasterKey, RestAPIKey and SessionToken. -/
inductive FbCredentials where
  | masterKey (key : String)
  | restAPIKey (key : String)
  | sessionToken (restAPIKey : String) (sessionToken : String)
deriving DecidableEq

/-- The `Modify` methods of the three strategies: validate the required
fields, failing with the error naming the first empty one, else set the
strategy's headers. -/
def FbCredentials.modify : FbCredentials → List (String × String) →
    Except String (List (String × String))
  | FbCredentials.masterKey k, h =>
    if k = "" then Except.error errEmptyMasterKey
    else Except.ok (headerSet h masterKeyHeader k)
  | FbCredentials.restAPIKey k, h =>
    if k = "" then Except.error errEmptyRestAPIKey
    else Except.ok (headerSet h restAPIKeyHeader k)
  | FbCredentials.sessionToken rk st, h =>
    if rk = "" then Except.error errEmptyRestAPIKey
    else if st = "" then Except.error errEmptySessionToken
    else Except.ok (headerSet (headerSet h restAPIKeyHeader rk) sessionTokenHeader st)

/-- Client of the facebookgo/parse iteration. -/
structure FbClient where
  baseURL : Option URL := none
  applicationID : String := ""
  credentials : Option FbCredentials := none
deriving DecidableEq

/-- The `Error` struct of the facebookgo/parse iteration: it additionally
records the HTTP status code (never populated from JSON). -/
structure FbError where
  message : String := ""
  code : Int := 0
  statusCode : Nat := 0
deriving DecidableEq

/-- Result of the facebookgo `Client.Do`, by source path taken. -/
inductive FbOutcome where
  | success (decoded : Option Json)
  | validationError (msg : String)
  | marshalError (msg : String)
  | transportError (msg : String)
  | apiError (e : FbError)
  | bodyUnmarshalError (status : Nat) (body : String)
  | resultDecodeError (status : Nat) (body : String)

/-- The transport call and response classification of the facebookgo
`Client.Do` (an empty error body is kept as a bare status-only `Error`;
a nonempty one must unmarshal; a 2xx/3xx body is only read when a result
destination was given). -/
def fbClassifyResponse (status : Nat) (rbody : String) (hasResult : Bool) :
    FbOutcome :=
  if status > 399 ∨ status < 200 then
    if rbody = "" then FbOutcome.apiError { statusCode := status }
    else
      match unmarshalParseError rbody with
      | none => FbOutcome.bodyUnmarshalError status rbody
      | some e =>
        FbOutcome.apiError
          { message := e.message, code := e.code, statusCode := status }
  else
    if hasResult then
      match jsonParse rbody with
      | none => FbOutcome.resultDecodeError status rbody
      | some j => FbOutcome.success (some j)
    else FbOutcome.success none

def fbRoundTrip (transport : Request → TransportResult) (req : Request)
    (hasResult : Bool) : FbOutcome × Option Request :=
  match transport req with
  | TransportResult.netErr msg => (FbOutcome.transportError msg, some req)
  | TransportResult.ok status _ rbody =>
    (fbClassifyResponse status rbody hasResult, some req)

/-- Body serialization step of the facebookgo `Client.Do` (after the
credential checks, before the round trip). -/
def fbSend (transport : Request → TransportResult) (req : Request)
    (body : Option (Except String String)) (hasResult : Bool) :
    FbOutcome × Option Request :=
  match body with
  | some (Except.error msg) => (FbOutcome.marshalError msg, none)
  | some (Except.ok bd) =>
    fbRoundTrip transport
      { req with body := some bd, contentLength := (bd.length : Int) } hasResult
  | none => fbRoundTrip transport req hasResult

/-- `Client.Do` of the facebookgo/parse iteration: resolve the URL, add the
User-Agent, require a nonempty ApplicationID, let the credential strategy
modify the request (failing fast on empty required fields), then serialize
the body and perform the round trip.  The second component is the request
handed to the transport, `none` when no network call was made. -/
def FbClient.Do (c : FbClient) (transport : Request → TransportResult)
    (req : Request) (body : Option (Except String String)) (hasResult : Bool) :
    FbOutcome × Option Request :=
  let req1 : Request :=
    { req with proto := "HTTP/1.1", protoMajor := 1, protoMinor := 1 }
  let base := match c.baseURL with | none => DefaultBaseURL | some b => b
  let u := match req1.url with
    | none => base
    | some p => if p.isAbs then p else URL.resolveReference base p
  let req2 : Request := { req1 with url := some u }
  let req3 : Request :=
    { req2 with host := if req2.host = "" then u.host else req2.host }
  let req4 : Request :=
    { req3 with headers := req3.headers ++ [ (userAgentHeader, userAgent) ] }
  if c.applicationID = "" then (FbOutcome.validationError errEmptyApplicationID, none)
  else
    let req5 : Request := { req4 with headers := req4.headers ++
        [ ("X-Parse-Application-Id", c.applicationID) ] }
    match c.credentials with
    | some cr =>
      match cr.modify req5.headers with
      | Except.error e => (FbOutcome.validationError e, none)
      | Except.ok h => fbSend transport { req5 with headers := h } body hasResult
    | none => fbSend transport req5 body hasResult

/-! ### ACL (src/parse.go lines 97-116) -/

/-- Read/write permissions. -/
structure Permissions where
  read : Bool := false
  write : Bool := false
deriving DecidableEq

/-- A Go `map[string]*Permissions`; indexing a missing key yields Go's nil,
modelled as `none`. -/
def ACL := List (String × Permissions)

def PublicPermissionKey : String := "*"

/-- Go map indexing `a[k]`. -/
def ACL.find (a : ACL) (k : String) : Option Permissions := List.lookup k a

/-- `ACL.Public`: the entry under the public key "*". -/
def ACL.Public (a : ACL) : Option Permissions := ACL.find a PublicPermissionKey

/-- `ACL.ForUserID`: the entry under the user id itself. -/
def ACL.ForUserID (a : ACL) (userID : String) : Option Permissions :=
  ACL.find a userID

/-- `ACL.ForRoleName`: the entry under "role:" ++ name. -/
def ACL.ForRoleName (a : ACL) (roleName : String) : Option Permissions :=
  ACL.find a ("role:" ++ roleName)

/-! ### Query parameter builders, all three iterations.

Numeric parameters are uint64 in the source, modelled as Nat.  In the
urlbuild-based iterations `urlbuild.Uint64` (a dependency outside src/)
always emits "key=FormatUint(v)" and `urlbuild.Nil` emits nothing, as the
repository's own doc comments and tests record. -/

namespace OptionsV1

/-- src/options.go `paramLimit.set`: "0 values are also sent". -/
def paramLimitSet (p : Nat) : List (String × String) := [ ("limit", toString p) ]

/-- src/options.go `paramSkip.set`: "0 values are not sent". -/
def paramSkipSet (p : Nat) : List (String × String) :=
  if p ≠ 0 then [ ("skip", toString p) ] else []

end OptionsV1

namespace OptionsV2

/-- src/unnamed/part_004 `ParamLimit`: always emitted, also at 0. -/
def ParamLimit (limit : Nat) : List (String × String) :=
  [ ("limit", toString limit) ]

/-- src/unnamed/part_004 `ParamSkip`: Nil at 0, else emitted. -/
def ParamSkip (skip : Nat) : List (String × String) :=
  if skip = 0 then [] else [ ("skip", toString skip) ]

end OptionsV2

namespace OptionsV3

/-- src/unnamed/part_005 `OptionLimit`: always emitted, also at 0. -/
def OptionLimit (limit : Nat) : List (String × String) :=
  [ ("limit", toString limit) ]

/-- src/unnamed/part_005 `OptionSkip`: Nil at 0, else emitted. -/
def OptionSkip (skip : Nat) : List (String × String) :=
  if skip = 0 then [] else [ ("skip", toString skip) ]

end OptionsV3

/-- The per-iteration builders of the "limit" parameter. -/
def limitBuilders : List (Nat → List (String × String)) :=
  [ OptionsV1.paramLimitSet, OptionsV2.ParamLimit, OptionsV3.OptionLimit ]

/-- The per-iteration builders of the "skip" parameter. -/
def skipBuilders : List (Nat → List (String × String)) :=
  [ OptionsV1.paramSkipSet, OptionsV2.ParamSkip, OptionsV3.OptionSkip ]

/-- Two iterations of the same parameter disagree at the zero value. -/
def zeroPolicyDiffers (vs : List (Nat → List (String × String))) : Prop :=
  ∃ f ∈ vs, ∃ g ∈ vs, f 0 ≠ g 0

/-! ### Helper lemmas -/

theorem replaceScan_nil_pairs (fuel : Nat) (cs : List Char) :
    replaceScan [] fuel cs = cs := by
  induction fuel generalizing cs with
  | zero => rfl
  | succ n ih =>
    cases cs with
    | nil => rfl
    | cons c cs => simp [replaceScan, firstMatch, ih]

theorem multiReplace_nil (s : String) : multiReplace [] s = s := by
  simp [multiReplace, replaceScan_nil_pairs]

theorem firstMatch_mem {pairs : List (String × String)} {cs : List Char}
    {pr : String × String} (h : firstMatch pairs cs = some pr) : pr ∈ pairs :=
  List.mem_of_find?_eq_some h

theorem firstMatch_nonempty {pairs : List (String × String)} {cs : List Char}
    {pr : String × String} (h : firstMatch pairs cs = some pr) :
    pr.1.data ≠ [] := by
  have := List.find?_some h
  simp only [Bool.and_eq_true, Bool.not_eq_true'] at this
  intro hnil
  rw [hnil] at this
  simp at this

/-- If some listed pattern (all nonempty) occurs in the input then some listed
replacement occurs in the scanned output. -/
theorem replaceScan_hits (pairs : List (String × String)) :
    ∀ (fuel : Nat) (cs : List Char),
      (∀ pr ∈ pairs, pr.1.data ≠ []) →
      cs.length ≤ fuel →
      (∃ pr ∈ pairs, pr.1.data <:+: cs) →
      ∃ pr ∈ pairs, pr.2.data <:+: replaceScan pairs fuel cs := by
  intro fuel
  induction fuel with
  | zero =>
    intro cs hne hlen hocc
    obtain ⟨pr, hmem, hinf⟩ := hocc
    have hcs : cs = [] := List.length_eq_zero.mp (Nat.le_zero.mp hlen)
    rw [hcs] at hinf
    exact absurd (List.infix_nil.mp hinf) (hne pr hmem)
  | succ n ih =>
    intro cs hne hlen hocc
    cases cs with
    | nil =>
      obtain ⟨pr, hmem, hinf⟩ := hocc
      exact absurd (List.infix_nil.mp hinf) (hne pr hmem)
    | cons c cs =>
      cases hfm : firstMatch pairs (c :: cs) with
      | some pr =>
        refine ⟨pr, firstMatch_mem hfm, ?_⟩
        simp only [replaceScan, hfm]
        exact List.IsPrefix.isInfix (List.prefix_append pr.2.data _)
      | none =>
        obtain ⟨pr, hmem, hinf⟩ := hocc
        rcases List.infix_cons_iff.mp hinf with hpre | hinf'
        · exfalso
          have hb : (!pr.1.data.isEmpty && pr.1.data.isPrefixOf (c :: cs)) = true := by
            simp only [Bool.and_eq_true, Bool.not_eq_true', List.isEmpty_eq_false,
              List.isPrefixOf_iff_prefix]
            exact ⟨hne pr hmem, hpre⟩
          have := List.find?_eq_none.mp hfm pr hmem
          exact this hb
        · have hrec := ih cs (by exact hne)
            (Nat.le_of_succ_le_succ hlen) ⟨pr, hmem, hinf'⟩
          obtain ⟨pr', hmem', hinf''⟩ := hrec
          refine ⟨pr', hmem', ?_⟩
          simp only [replaceScan, hfm]
          exact List.infix_cons hinf''

/-- String-level version of `replaceScan_hits`. -/
theorem multiReplace_hits (pairs : List (String × String)) (s : String)
    (hne : ∀ pr ∈ pairs, pr.1.data ≠ [])
    (hocc : ∃ pr ∈ pairs, strContains s pr.1) :
    ∃ pr ∈ pairs, strContains (multiReplace pairs s) pr.2 := by
  obtain ⟨pr, hmem, hinf⟩ := hocc
  have := replaceScan_hits pairs s.data.length s.data hne (Nat.le_refl _)
    ⟨pr, hmem, hinf⟩
  obtain ⟨pr', hmem', hinf'⟩ := this
  exact ⟨pr', hmem', hinf'⟩

/-- Whatever the transport answers, the request passed to it is the one
`clientSend` records. -/
theorem clientSend_snd (transport : Request → TransportResult) (req : Request)
    (hasResult : Bool) : (clientSend transport req hasResult).2 = some req := by
  unfold clientSend
  cases transport req <;> rfl

theorem fbRoundTrip_snd (transport : Request → TransportResult) (req : Request)
    (hasResult : Bool) : (fbRoundTrip transport req hasResult).2 = some req := by
  unfold fbRoundTrip
  cases transport req <;> rfl

/-- A nonempty string has nonempty character data. -/
theorem string_data_ne_nil {s : String} (h : s ≠ "") : s.data ≠ [] := by
  intro hd
  apply h
  cases s
  simp only [String.data] at hd
  simp [hd]

/-- With a transport that delivers a fixed response, the outcome of
`Client.Do` is the classification of that response. -/
theorem clientDo_classify (c : Client) (status : Nat) (stext rbody : String)
    (req : Request) (reqBody : Option String) (hasResult : Bool) :
    (Client.Do c (fun _ => TransportResult.ok status stext rbody) req
        (reqBody.map Except.ok) hasResult).1 =
      classifyResponse status rbody hasResult := by
  cases reqBody <;> rfl

/-- The classification is a success exactly for statuses in [200,399] whose
body decodes when a result destination was given. -/
theorem classifyResponse_isSuccess (status : Nat) (rbody : String)
    (hasResult : Bool) :
    DoOutcome.isSuccess (classifyResponse status rbody hasResult) = true ↔
      (200 ≤ status ∧ status ≤ 399 ∧
        (hasResult = true → (jsonParse rbody).isSome = true)) := by
  unfold classifyResponse
  split
  next h =>
    cases hu : unmarshalParseError rbody <;>
      simp [DoOutcome.isSuccess] <;> omega
  next h =>
    rw [not_or] at h
    cases hasResult with
    | false =>
      simp [DoOutcome.isSuccess]
      omega
    | true =>
      cases hj : jsonParse rbody
      all_goals simp [DoOutcome.isSuccess, hj]
      all_goals omega

/-- Single-pair replacement: an occurrence of the pattern forces an
occurrence of the replacement in the output. -/
theorem multiReplace_hit_single (pat rep s : String) (hne : pat ≠ "")
    (hocc : strContains s pat) :
    strContains (multiReplace [ (pat, rep) ] s) rep := by
  have hres := multiReplace_hits [ (pat, rep) ] s
    (by
      intro pr hpr
      rw [List.mem_singleton] at hpr
      subst hpr
      exact string_data_ne_nil hne)
    ⟨(pat, rep), List.mem_singleton.mpr rfl, hocc⟩
  obtain ⟨pr, hpr, hc⟩ := hres
  rw [List.mem_singleton] at hpr
  subst hpr
  exact hc

/-- Two-pair replacement: an occurrence of either pattern forces an
occurrence of one of the two replacements in the output. -/
theorem multiReplace_hit_pair (p1 r1 p2 r2 s : String)
    (h1 : p1 ≠ "") (h2 : p2 ≠ "")
    (hocc : strContains s p1 ∨ strContains s p2) :
    strContains (multiReplace [ (p1, r1), (p2, r2) ] s) r1 ∨
    strContains (multiReplace [ (p1, r1), (p2, r2) ] s) r2 := by
  have hres := multiReplace_hits [ (p1, r1), (p2, r2) ] s
    (by
      intro pr hpr
      fin_cases hpr
      · exact string_data_ne_nil h1
      · exact string_data_ne_nil h2)
    (by
      cases hocc with
      | inl h => exact ⟨(p1, r1), by simp, h⟩
      | inr h => exact ⟨(p2, r2), by simp, h⟩)
  obtain ⟨pr, hpr, hc⟩ := hres
  fin_cases hpr
  · exact Or.inl hc
  · exact Or.inr hc

/-! ### Claim theorems -/

/-- C9: `ForUserID` is exactly map lookup at the user id, `ForRoleName` is
lookup at "role:" ++ name, `Public` is lookup at "*"; hence a user id of
shape "*" aliases the public entry and a user id of shape "role:" ++ r
aliases the role entry. -/
theorem c9_acl_accessors (a : ACL) (u r : String) :
    ACL.ForUserID a u = ACL.find a u ∧
    ACL.ForRoleName a r = ACL.find a ("role:" ++ r) ∧
    ACL.Public a = ACL.find a "*" ∧
    ACL.ForUserID a "*" = ACL.Public a ∧
    ACL.ForUserID a ("role:" ++ r) = ACL.ForRoleName a r :=
  ⟨rfl, rfl, rfl, rfl, rfl⟩

/-- C8 counterexample: the claim that some two iterations disagree at a
zero-valued numeric parameter is false -- for each of "limit" and "skip",
all three iterations behave identically at 0. -/
theorem c8_counterexample :
    ¬ (zeroPolicyDiffers limitBuilders ∨ zeroPolicyDiffers skipBuilders) := by
  rintro (⟨f, hf, g, hg, hne⟩ | ⟨f, hf, g, hg, hne⟩) <;>
    exact hne (by fin_cases hf <;> fin_cases hg <;> rfl)

/-- C8 amended: the zero-inclusion policy is consistent across iterations for
each parameter (every iteration sends "limit=0" and omits a zero skip); the
inconsistency is between the two parameters inside every single iteration. -/
theorem c8_amended :
    (OptionsV1.paramLimitSet 0 = [ ("limit", "0") ] ∧
     OptionsV2.ParamLimit 0 = [ ("limit", "0") ] ∧
     OptionsV3.OptionLimit 0 = [ ("limit", "0") ]) ∧
    (OptionsV1.paramSkipSet 0 = [] ∧
     OptionsV2.ParamSkip 0 = [] ∧
     OptionsV3.OptionSkip 0 = []) ∧
    (OptionsV1.paramLimitSet 0 ≠ [] ∧ OptionsV1.paramSkipSet 0 = []) := by
  refine ⟨⟨rfl, rfl, rfl⟩, ⟨rfl, rfl, rfl⟩, by decide, rfl⟩

/-- C7: with a request body whose JSON serialization is `bd`, `Client.Do`
hands the transport a request carrying exactly `bd` as body and `bd`'s byte
length as ContentLength (for every length, 0 included); a failed
serialization returns the marshalling error with no network call. -/
theorem c7_content_length (c : Client) (transport : Request → TransportResult)
    (req : Request) (bd msg : String) (hasResult : Bool) :
    (∃ r, (Client.Do c transport req (some (Except.ok bd)) hasResult).2 = some r ∧
       r.contentLength = (bd.length : Int) ∧ r.body = some bd) ∧
    Client.Do c transport req (some (Except.error msg)) hasResult =
      (DoOutcome.marshalError msg, none) := by
  constructor
  · exact ⟨_, clientSend_snd transport _ hasResult, rfl, rfl⟩
  · rfl

/-- C2: each credential strategy with an empty required field makes the
facebookgo `Client.Do` fail with the validation error naming that field,
before any transport call (the recorded transport request is `none`);
an empty ApplicationID likewise fails before any network call.  Each error
string literally names its field. -/
theorem c2_credential_validation (c : FbClient)
    (transport : Request → TransportResult) (req : Request)
    (body : Option (Except String String)) (hasResult : Bool) :
    (c.applicationID = "" →
      FbClient.Do c transport req body hasResult =
        (FbOutcome.validationError errEmptyApplicationID, none)) ∧
    (c.applicationID ≠ "" →
      (c.credentials = some (FbCredentials.masterKey "") →
        FbClient.Do c transport req body hasResult =
          (FbOutcome.validationError errEmptyMasterKey, none)) ∧
      (c.credentials = some (FbCredentials.restAPIKey "") →
        FbClient.Do c transport req body hasResult =
          (FbOutcome.validationError errEmptyRestAPIKey, none)) ∧
      (∀ st, c.credentials = some (FbCredentials.sessionToken "" st) →
        FbClient.Do c transport req body hasResult =
          (FbOutcome.validationError errEmptyRestAPIKey, none)) ∧
      (∀ rk, rk ≠ "" → c.credentials = some (FbCredentials.sessionToken rk "") →
        FbClient.Do c transport req body hasResult =
          (FbOutcome.validationError errEmptySessionToken, none))) ∧
    strContains errEmptyApplicationID "ApplicationID" ∧
    strContains errEmptyMasterKey "MasterKey" ∧
    strContains errEmptyRestAPIKey "RestAPIKey" ∧
    strContains errEmptySessionToken "SessionToken" := by
  refine ⟨?_, ?_, by decide, by decide, by decide, by decide⟩
  · intro happ
    simp [FbClient.Do, happ]
  · intro happ
    refine ⟨?_, ?_, ?_, ?_⟩
    · intro hc
      simp [FbClient.Do, happ, hc, FbCredentials.modify]
    · intro hc
      simp [FbClient.Do, happ, hc, FbCredentials.modify]
    · intro st hc
      simp [FbClient.Do, happ, hc, FbCredentials.modify]
    · intro rk hrk hc
      simp [FbClient.Do, happ, hc, FbCredentials.modify, hrk]

/-- C2 witness: a concrete client with an empty MasterKey strategy fails
with the MasterKey validation error and no transport call. -/
theorem c2_credential_validation_witness :
    FbClient.Do
      { applicationID := "app", credentials := some (FbCredentials.masterKey "") }
      (fun _ => TransportResult.netErr "boom") {} none false =
      (FbOutcome.validationError errEmptyMasterKey, none) :=
  ((c2_credential_validation
      { applicationID := "app", credentials := some (FbCredentials.masterKey "") }
      (fun _ => TransportResult.netErr "boom") {} none false).2.1
    (by decide)).1 rfl

/-- C1: `Client.Do` resolves a nil request URL to the configured base URL, a
relative URL to the standard (RFC 3986) resolution against that base, keeps
an absolute URL as-is, and substitutes `https://api.parse.com/1/` for the
base when none is configured; the request handed to the transport carries
exactly the resolved URL. -/
theorem c1_url_resolution (c : Client) (p : URL)
    (transport : Request → TransportResult) (req : Request)
    (body : Option (Except String String)) (hasResult : Bool) :
    (c.resolveRequestURL none = c.base) ∧
    (p.isAbs = true → c.resolveRequestURL (some p) = p) ∧
    (p.isAbs = false →
      c.resolveRequestURL (some p) = URL.resolveReference c.base p) ∧
    (c.baseURL = none → c.base = DefaultBaseURL) ∧
    (∀ b, c.baseURL = some b → c.base = b) ∧
    (∀ r, (Client.Do c transport req body hasResult).2 = some r →
      r.url = some (c.resolveRequestURL req.url)) := by
  refine ⟨rfl, ?_, ?_, ?_, ?_, ?_⟩
  · intro h
    simp [Client.resolveRequestURL, h]
  · intro h
    simp [Client.resolveRequestURL, h]
  · intro h
    simp [Client.base, h]
  · intro b h
    simp [Client.base, h]
  · intro r hr
    cases body with
    | none =>
      unfold Client.Do at hr
      rw [clientSend_snd] at hr
      cases hr
      rfl
    | some ex =>
      cases ex with
      | error msg => exact absurd hr (by simp [Client.Do])
      | ok bd =>
        unfold Client.Do at hr
        rw [clientSend_snd] at hr
        cases hr
        rfl

/-- C1 witness: with no configured base URL, the relative path "classes/Foo"
resolves to https://api.parse.com/1/classes/Foo, and an absolute URL is kept
as-is. -/
theorem c1_url_resolution_witness :
    ({ baseURL := none } : Client).resolveRequestURL
        (some { path := "classes/Foo" }) =
      { scheme := "https", host := "api.parse.com", path := "/1/classes/Foo" } ∧
    ({ baseURL := none } : Client).resolveRequestURL
        (some { scheme := "http", host := "x.example", path := "/z" }) =
      { scheme := "http", host := "x.example", path := "/z" } := by
  constructor
  · have h := (c1_url_resolution { baseURL := none } { path := "classes/Foo" }
      (fun _ => TransportResult.netErr "") {} none false).2.2.1 (by decide)
    rw [h]
    decide
  · exact (c1_url_resolution { baseURL := none }
      { scheme := "http", host := "x.example", path := "/z" }
      (fun _ => TransportResult.netErr "") {} none false).2.1 (by decide)

/-- C5: for every delivered response with status outside [200,399],
`Client.Do` reads the full body and tries to unmarshal it as a structured
error; when that fails the outcome is built from the raw status and the raw
body bytes (constructor `bodyUnmarshalError` carries both), and it does fail
on the empty body and on the non-JSON body "<html>"; when it succeeds the
structured error is returned. -/
theorem c5_unstructured_error (c : Client) (req : Request) (status : Nat)
    (stext rbody : String) (reqBody : Option String) (hasResult : Bool)
    (hrange : status > 399 ∨ status < 200) :
    ((unmarshalParseError rbody = none →
        (Client.Do c (fun _ => TransportResult.ok status stext rbody) req
            (reqBody.map Except.ok) hasResult).1 =
          DoOutcome.bodyUnmarshalError status rbody) ∧
      (∀ e, unmarshalParseError rbody = some e →
        (Client.Do c (fun _ => TransportResult.ok status stext rbody) req
            (reqBody.map Except.ok) hasResult).1 = DoOutcome.apiError e)) ∧
    unmarshalParseError "" = none ∧
    unmarshalParseError "<html>" = none := by
  refine ⟨⟨?_, ?_⟩, by decide, by decide⟩
  · intro hu
    cases reqBody <;>
      simp [Client.Do, clientSend, classifyResponse, hrange, hu]
  · intro e hu
    cases reqBody <;>
      simp [Client.Do, clientSend, classifyResponse, hrange, hu]

/-- C5 witness: a delivered 404 with body "<html>" yields the error built
from the raw status and raw body. -/
theorem c5_unstructured_error_witness :
    (Client.Do {} (fun _ => TransportResult.ok 404 "404 Not Found" "<html>")
        {} none false).1 = DoOutcome.bodyUnmarshalError 404 "<html>" :=
  ((c5_unstructured_error {} {} 404 "404 Not Found" "<html>" none false
      (by decide)).1).1 (by decide)

/-- C3 counterexample: a delivered response with status 200 (inside
[200,399]) whose body "<html>" fails to decode into the given result
destination makes `Client.Do` return an error, refuting "non-error result
exactly when the status code lies in [200,399]". -/
theorem c3_counterexample :
    (Client.Do {} (fun _ => TransportResult.ok 200 "200 OK" "<html>")
        { method := "GET" } none true).1 =
      DoOutcome.resultDecodeError 200 "<html>" ∧
    (200 ≤ 200 ∧ 200 ≤ 399) ∧
    DoOutcome.isSuccess
      ((Client.Do {} (fun _ => TransportResult.ok 200 "200 OK" "<html>")
          { method := "GET" } none true).1) = false :=
  ⟨rfl, by decide, rfl⟩

/-- C3 amended: `Client.Do` returns a non-error result exactly when the
status lies in [200,399] and, when a result destination is given, the body
decodes; in that case the decoded body populates the destination (or the
body is discarded when no destination is given), and every status outside
[200,399] yields an error, never a populated result. -/
theorem c3_amended (c : Client) (req : Request) (status : Nat)
    (stext rbody : String) (reqBody : Option String) (hasResult : Bool) :
    (DoOutcome.isSuccess
        ((Client.Do c (fun _ => TransportResult.ok status stext rbody) req
            (reqBody.map Except.ok) hasResult).1) = true ↔
      (200 ≤ status ∧ status ≤ 399 ∧
        (hasResult = true → (jsonParse rbody).isSome = true))) ∧
    (∀ j, 200 ≤ status → status ≤ 399 → hasResult = true →
      jsonParse rbody = some j →
      (Client.Do c (fun _ => TransportResult.ok status stext rbody) req
          (reqBody.map Except.ok) hasResult).1 = DoOutcome.success (some j)) ∧
    (200 ≤ status → status ≤ 399 → hasResult = false →
      (Client.Do c (fun _ => TransportResult.ok status stext rbody) req
          (reqBody.map Except.ok) hasResult).1 = DoOutcome.success none) ∧
    (status < 200 ∨ status > 399 →
      DoOutcome.isSuccess
        ((Client.Do c (fun _ => TransportResult.ok status stext rbody) req
            (reqBody.map Except.ok) hasResult).1) = false) := by
  rw [clientDo_classify]
  refine ⟨classifyResponse_isSuccess status rbody hasResult, ?_, ?_, ?_⟩
  · intro j h1 h2 hres hj
    subst hres
    unfold classifyResponse
    rw [if_neg (by omega)]
    simp [hj]
  · intro h1 h2 hres
    subst hres
    unfold classifyResponse
    rw [if_neg (by omega)]
    rfl
  · intro h
    cases hb : DoOutcome.isSuccess (classifyResponse status rbody hasResult) with
    | false => rfl
    | true =>
      obtain ⟨h1, h2, -⟩ :=
        (classifyResponse_isSuccess status rbody hasResult).mp hb
      omega

/-- C3 amended witness: a delivered 200 response with a decodable JSON body
populates the result destination. -/
theorem c3_amended_witness :
    (Client.Do {} (fun _ => TransportResult.ok 200 "200 OK"
        "\x7b\"answer\":42\x7d") {} none true).1 =
      DoOutcome.success (some (Json.obj [ ("answer", Json.num 42) ])) :=
  (c3_amended {} {} 200 "200 OK" "\x7b\"answer\":42\x7d" none true).2.1
    (Json.obj [ ("answer", Json.num 42) ]) (by decide) (by decide) rfl rfl

set_option maxRecDepth 8192 in
/-- C4 counterexample: with the 404 body keyed "message" exactly as the
claim writes it, `json.Unmarshal` leaves `Error.Message` empty (the struct
serializes the message under the JSON key "error", not "message"), so the
rendered error contains "code 101" but not "message object not found for
get". -/
theorem c4_counterexample :
    (Client.Do {} (fun _ => TransportResult.ok 404 "404 Not Found"
        "\x7b\"code\":101,\"message\":\"object not found for get\"\x7d")
        { method := "GET",
          url := some { scheme := "https", host := "api.parse.com",
                        path := "/1/classes/Foo/Bar" } } none false).1 =
      DoOutcome.apiError { message := "", code := 101 } ∧
    strContains
      (ParseError.renderFull {} "GET"
        { scheme := "https", host := "api.parse.com", path := "/1/classes/Foo/Bar" }
        "404 Not Found" { message := "", code := 101 })
      "code 101" ∧
    ¬ strContains
      (ParseError.renderFull {} "GET"
        { scheme := "https", host := "api.parse.com", path := "/1/classes/Foo/Bar" }
        "404 Not Found" { message := "", code := 101 })
      "message object not found for get" :=
  ⟨rfl, by decide, by decide⟩

set_option maxRecDepth 8192 in
/-- C4 amended: for a 404 whose body is the JSON text
`{"code":101,"error":"object not found for get"}` (the API carries the
message under the key "error"), the structured error is extracted and its
rendered message contains both "code 101" and "message object not found for
get". -/
theorem c4_amended :
    (Client.Do {} (fun _ => TransportResult.ok 404 "404 Not Found"
        "\x7b\"code\":101,\"error\":\"object not found for get\"\x7d")
        { method := "GET",
          url := some { scheme := "https", host := "api.parse.com",
                        path := "/1/classes/Foo/Bar" } } none false).1 =
      DoOutcome.apiError { message := "object not found for get", code := 101 } ∧
    strContains
      (ParseError.renderFull {} "GET"
        { scheme := "https", host := "api.parse.com", path := "/1/classes/Foo/Bar" }
        "404 Not Found" { message := "object not found for get", code := 101 })
      "code 101" ∧
    strContains
      (ParseError.renderFull {} "GET"
        { scheme := "https", host := "api.parse.com", path := "/1/classes/Foo/Bar" }
        "404 Not Found" { message := "object not found for get", code := 101 })
      "message object not found for get" :=
  ⟨rfl, by decide, by decide⟩

/-- C6: with redaction disabled (or no sensitive value configured) the
error-text rendering is the identity, so secrets appear verbatim; with
redaction enabled, every rendered message that contained a configured secret
contains its fixed placeholder instead (src/parse.go redacts the master key;
the part_000 iteration redacts the JavaScript key and the master key --
when both are configured, an occurrence of either secret puts one of the two
placeholders in the output, the overlap of the two patterns deciding
which). -/
theorem c6_redaction (c : Client) (c0 : V0Client) (s : String) :
    (c.redact = false → c.redactor s = s) ∧
    (c.credentials.masterKey = "" → c.redactor s = s) ∧
    (c.redact = true → c.credentials.masterKey ≠ "" →
      c.redactor s =
        multiReplace [ (c.credentials.masterKey, masterKeyPlaceholder) ] s ∧
      (strContains s c.credentials.masterKey →
        strContains (c.redactor s) masterKeyPlaceholder)) ∧
    (c0.redact = false → redactIf c0 s = s) ∧
    (c0.redact = true → c0.credentials.javaScriptKey = "" →
      c0.credentials.masterKey = "" → redactIf c0 s = s) ∧
    (c0.redact = true → c0.credentials.javaScriptKey ≠ "" →
      c0.credentials.masterKey = "" →
      strContains s c0.credentials.javaScriptKey →
      strContains (redactIf c0 s) javaScriptKeyPlaceholder) ∧
    (c0.redact = true → c0.credentials.javaScriptKey = "" →
      c0.credentials.masterKey ≠ "" →
      strContains s c0.credentials.masterKey →
      strContains (redactIf c0 s) masterKeyPlaceholder) ∧
    (c0.redact = true →
      ((c0.credentials.javaScriptKey ≠ "" ∧
          strContains s c0.credentials.javaScriptKey) ∨
        (c0.credentials.masterKey ≠ "" ∧
          strContains s c0.credentials.masterKey)) →
      strContains (redactIf c0 s) javaScriptKeyPlaceholder ∨
      strContains (redactIf c0 s) masterKeyPlaceholder) := by
  refine ⟨?_, ?_, ?_, ?_, ?_, ?_, ?_, ?_⟩
  · intro hred
    simp [Client.redactor, hred]
  · intro hmk
    simp [Client.redactor, hmk]
  · intro hred hmk
    have heq : c.redactor s =
        multiReplace [ (c.credentials.masterKey, masterKeyPlaceholder) ] s := by
      simp [Client.redactor, hred, hmk]
    refine ⟨heq, ?_⟩
    intro hocc
    rw [heq]
    exact multiReplace_hit_single _ _ _ hmk hocc
  · intro hred
    simp [redactIf, hred]
  · intro hred hjs hmk
    simp [redactIf, hred, hjs, hmk, multiReplace_nil]
  · intro hred hjs hmk hocc
    have heq : redactIf c0 s =
        multiReplace
          [ (c0.credentials.javaScriptKey, javaScriptKeyPlaceholder) ] s := by
      simp [redactIf, hred, hjs, hmk]
    rw [heq]
    exact multiReplace_hit_single _ _ _ hjs hocc
  · intro hred hjs hmk hocc
    have heq : redactIf c0 s =
        multiReplace [ (c0.credentials.masterKey, masterKeyPlaceholder) ] s := by
      simp [redactIf, hred, hjs, hmk]
    rw [heq]
    exact multiReplace_hit_single _ _ _ hmk hocc
  · intro hred hocc
    by_cases hjs : c0.credentials.javaScriptKey = ""
    · by_cases hmk : c0.credentials.masterKey = ""
      · rcases hocc with ⟨hne, -⟩ | ⟨hne, -⟩
        · exact absurd hjs hne
        · exact absurd hmk hne
      · have heq : redactIf c0 s =
            multiReplace
              [ (c0.credentials.masterKey, masterKeyPlaceholder) ] s := by
          simp [redactIf, hred, hjs, hmk]
        rcases hocc with ⟨hne, -⟩ | ⟨-, hc⟩
        · exact absurd hjs hne
        · rw [heq]
          exact Or.inr (multiReplace_hit_single _ _ _ hmk hc)
    · by_cases hmk : c0.credentials.masterKey = ""
      · have heq : redactIf c0 s =
            multiReplace
              [ (c0.credentials.javaScriptKey, javaScriptKeyPlaceholder) ] s := by
          simp [redactIf, hred, hjs, hmk]
        rcases hocc with ⟨-, hc⟩ | ⟨hne, -⟩
        · rw [heq]
          exact Or.inl (multiReplace_hit_single _ _ _ hjs hc)
        · exact absurd hmk hne
      · have heq : redactIf c0 s =
            multiReplace
              [ (c0.credentials.javaScriptKey, javaScriptKeyPlaceholder),
                (c0.credentials.masterKey, masterKeyPlaceholder) ] s := by
          simp [redactIf, hred, hjs, hmk]
        rw [heq]
        refine multiReplace_hit_pair _ _ _ _ s hjs hmk ?_
        rcases hocc with ⟨-, hc⟩ | ⟨-, hc⟩
        · exact Or.inl hc
        · exact Or.inr hc

/-- C6 witness: a concrete redacting client replaces its configured master
key by the placeholder, and with redaction off the rendering is the
identity. -/
theorem c6_redaction_witness :
    strContains
      (Client.redactor
        { credentials := { masterKey := "ms-key" }, redact := true }
        "x ms-key y")
      masterKeyPlaceholder ∧
    Client.redactor { credentials := { masterKey := "ms-key" } }
      "x ms-key y" = "x ms-key y" :=
  ⟨((c6_redaction { credentials := { masterKey := "ms-key" }, redact := true }
        {} "x ms-key y").2.2.1 rfl (by decide)).2 (by decide),
    (c6_redaction { credentials := { masterKey := "ms-key" } } {}
        "x ms-key y").1 rfl⟩

end ParseClient
